import Mathlib

/-!
Verification development for the BLE UUID module (`src/ble/uuid.rs`) of the
rubble BLE stack: the three UUID representations (16-, 32- and 128-bit),
their widening conversions through the Bluetooth Base UUID, and their
big-endian byte codec.

Bytes are modelled as `Nat` values (expected `< 256` when produced by the
encoders); fixed-width machine integers are `Nat` with explicit bounds in
the theorems. The byte-buffer cursors come from `ble::utils`, which is not
part of the sources at hand, so they are modelled from the specification's
description of the buffer abstraction; every definition taken from the
source keeps the source's name where Lean allows it.
-/

/-- Error type of the BLE codec. The decode path of `uuid.rs` uses
`Error::Eof`; the encode-side error class is named `BufferTooSmall` by the
specification (the concrete `Error` enum lives outside `uuid.rs`). -/
inductive Error where
  | Eof
  | BufferTooSmall
deriving DecidableEq, Repr

/-- Big-endian byte decomposition of a `u16` (`u16::to_be_bytes`). -/
def u16ToBeBytes (v : Nat) : List Nat :=
  [v / 2 ^ 8 % 2 ^ 8, v % 2 ^ 8]

/-- Big-endian byte decomposition of a `u32` (`u32::to_be_bytes`). -/
def u32ToBeBytes (v : Nat) : List Nat :=
  [v / 2 ^ 24 % 2 ^ 8, v / 2 ^ 16 % 2 ^ 8, v / 2 ^ 8 % 2 ^ 8, v % 2 ^ 8]

/-- Big-endian reassembly of a byte list into a number
(`u16::from_be_bytes` / `u32::from_be_bytes`). -/
def beBytesToNat (bs : List Nat) : Nat :=
  bs.foldl (fun acc b => acc * 2 ^ 8 + b) 0

/-- The Bluetooth Base UUID constant `00000000-0000-1000-8000-00805F9B34FB`
as the 16-byte array `BASE_UUID` of `uuid.rs`. -/
def BASE_UUID : List Nat :=
  [0x00, 0x00, 0x00, 0x00, 0x00, 0x00, 0x10, 0x00,
   0x80, 0x00, 0x00, 0x80, 0x5F, 0x9B, 0x34, 0xFB]

/-- A 16-bit UUID alias (`Uuid16(pub u16)`). -/
structure Uuid16 where
  val : Nat
deriving DecidableEq, Repr

/-- A 32-bit UUID alias (`Uuid32(pub u32)`). -/
structure Uuid32 where
  val : Nat
deriving DecidableEq, Repr

/-- A full 128-bit UUID as its 16-byte array (the `uuid` crate's `Uuid`,
re-exported by `uuid.rs`). -/
structure Uuid where
  bytes : List Nat
deriving DecidableEq, Repr

/-- `impl From<Uuid16> for Uuid32`: `Uuid32(smol.0.into())`, the
zero-extension of the 16-bit value. -/
def Uuid32.fromUuid16 (smol : Uuid16) : Uuid32 :=
  ⟨smol.val⟩

/-- The `uuid` crate's `Uuid::from_bytes`: wraps a 16-byte array. -/
def Uuid.fromByteArray (array : List Nat) : Uuid :=
  ⟨array⟩

/-- The `uuid` crate's `Uuid::as_bytes`: the underlying 16-byte array. -/
def Uuid.as_bytes (u : Uuid) : List Nat :=
  u.bytes

/-- `byteorder::BigEndian::write_u32`: overwrite the first 4 bytes of the
buffer with the big-endian encoding of `v`. -/
def writeU32BigEndian (buf : List Nat) (v : Nat) : List Nat :=
  u32ToBeBytes v ++ buf.drop 4

/-- `impl Into<Uuid> for Uuid32`: copy `BASE_UUID`, write the 32-bit value
big-endian into its first 4 bytes, wrap the result. -/
def Uuid32.intoUuid (u : Uuid32) : Uuid :=
  Uuid.fromByteArray (writeU32BigEndian BASE_UUID u.val)

/-- `impl Into<Uuid> for Uuid16`: `Uuid32::from(self).into()`. -/
def Uuid16.intoUuid (u : Uuid16) : Uuid :=
  (Uuid32.fromUuid16 u).intoUuid

/-- Modelled from the spec: the mutable output cursor of the byte-buffer
abstraction (`ble::utils`, not among the sources at hand). It tracks the
bytes written so far and the remaining free capacity. -/
structure WriteCursor where
  written : List Nat
  free : Nat
deriving DecidableEq, Repr

/-- Modelled from the spec: `MutSliceExt::write_slice` of `ble::utils`
(not among the sources at hand): write all of `data`, advance the cursor,
or fail with a `BufferTooSmall`-class error when the remaining capacity is
insufficient, leaving the cursor untouched (all-or-nothing). -/
def writeSlice (buffer : WriteCursor) (data : List Nat) :
    Except Error Unit × WriteCursor :=
  if data.length ≤ buffer.free then
    (Except.ok (), ⟨buffer.written ++ data, buffer.free - data.length⟩)
  else
    (Except.error Error.BufferTooSmall, buffer)

/-- Modelled from the spec: `SliceExt::read_array` of `ble::utils` (not
among the sources at hand): take `n` bytes from the front of the input and
advance past them, or fail when fewer than `n` bytes remain. The spec
leaves the cursor position on failure unspecified; this model leaves it
unchanged. -/
def read_array (bytes : List Nat) (n : Nat) : Option (List Nat) × List Nat :=
  if n ≤ bytes.length then
    (some (bytes.take n), bytes.drop n)
  else
    (none, bytes)

/-- `ToBytes for Uuid16`: `space_needed` is the constant 2. -/
def Uuid16.space_needed (_u : Uuid16) : Nat :=
  2

/-- `ToBytes for Uuid16`: `buffer.write_slice(&self.0.to_be_bytes())`. -/
def Uuid16.to_bytes (u : Uuid16) (buffer : WriteCursor) :
    Except Error Unit × WriteCursor :=
  writeSlice buffer (u16ToBeBytes u.val)

/-- `ToBytes for Uuid32`: `space_needed` is the constant 4. -/
def Uuid32.space_needed (_u : Uuid32) : Nat :=
  4

/-- `ToBytes for Uuid32`: `buffer.write_slice(&self.0.to_be_bytes())`. -/
def Uuid32.to_bytes (u : Uuid32) (buffer : WriteCursor) :
    Except Error Unit × WriteCursor :=
  writeSlice buffer (u32ToBeBytes u.val)

/-- `ToBytes for Uuid`: `space_needed` is the constant 16. -/
def Uuid.space_needed (_u : Uuid) : Nat :=
  16

/-- `ToBytes for Uuid`: `buffer.write_slice(self.as_bytes())`. -/
def Uuid.to_bytes (u : Uuid) (buffer : WriteCursor) :
    Except Error Unit × WriteCursor :=
  writeSlice buffer u.as_bytes

/-- `FromBytes for Uuid16`: read a 2-byte array (`Error::Eof` when it is
unavailable) and assemble it big-endian. -/
def Uuid16.from_bytes (bytes : List Nat) : Except Error Uuid16 × List Nat :=
  match read_array bytes 2 with
  | (some array, rest) => (Except.ok ⟨beBytesToNat array⟩, rest)
  | (none, rest) => (Except.error Error.Eof, rest)

/-- `FromBytes for Uuid32`: read a 4-byte array (`Error::Eof` when it is
unavailable) and assemble it big-endian. -/
def Uuid32.from_bytes (bytes : List Nat) : Except Error Uuid32 × List Nat :=
  match read_array bytes 4 with
  | (some array, rest) => (Except.ok ⟨beBytesToNat array⟩, rest)
  | (none, rest) => (Except.error Error.Eof, rest)

/-- `FromBytes for Uuid`: read a 16-byte array (`Error::Eof` when it is
unavailable) and wrap it with `Uuid::from_bytes`. -/
def Uuid.from_bytes (bytes : List Nat) : Except Error Uuid × List Nat :=
  match read_array bytes 16 with
  | (some array, rest) => (Except.ok (Uuid.fromByteArray array), rest)
  | (none, rest) => (Except.error Error.Eof, rest)

/-- Hexadecimal digit character for a value below 16, uppercase. -/
def hexDigit (n : Nat) : Char :=
  if n < 10 then Char.ofNat (48 + n) else Char.ofNat (55 + n)

/-- Two uppercase hexadecimal digits of one byte. -/
def byteHex (b : Nat) : List Char :=
  [hexDigit (b / 16), hexDigit (b % 16)]

/-- Uppercase hexadecimal digits of a byte list. -/
def bytesHex (bs : List Nat) : List Char :=
  List.flatten (bs.map byteHex)

/-- Canonical hyphenated string of a 128-bit UUID: hexadecimal groups of
4, 2, 2, 2 and 6 bytes separated by hyphens (RFC 4122 display order). -/
def Uuid.canonicalString (u : Uuid) : String :=
  String.mk (bytesHex (u.bytes.take 4)) ++ "-" ++
  String.mk (bytesHex ((u.bytes.drop 4).take 2)) ++ "-" ++
  String.mk (bytesHex ((u.bytes.drop 6).take 2)) ++ "-" ++
  String.mk (bytesHex ((u.bytes.drop 8).take 2)) ++ "-" ++
  String.mk (bytesHex (u.bytes.drop 10))

/-- Reassembling the big-endian bytes of a `u16` recovers the value. -/
theorem beBytesToNat_u16ToBeBytes (v : Nat) (h : v < 2 ^ 16) :
    beBytesToNat (u16ToBeBytes v) = v := by
  simp [beBytesToNat, u16ToBeBytes]
  omega

/-- Reassembling the big-endian bytes of a `u32` recovers the value. -/
theorem beBytesToNat_u32ToBeBytes (v : Nat) (h : v < 2 ^ 32) :
    beBytesToNat (u32ToBeBytes v) = v := by
  simp [beBytesToNat, u32ToBeBytes]
  omega

/-- Claim C1: widening a `Uuid32` yields a 16-byte value whose first 4
bytes are the big-endian encoding of the 32-bit value and whose bytes 4-15
equal bytes 4-15 of `BASE_UUID`. -/
theorem uuid32_base_substitution (v : Nat) (h : v < 2 ^ 32) :
    (Uuid32.mk v).intoUuid.bytes.length = 16 ∧
    (Uuid32.mk v).intoUuid.bytes.take 4 = u32ToBeBytes v ∧
    beBytesToNat ((Uuid32.mk v).intoUuid.bytes.take 4) = v ∧
    (Uuid32.mk v).intoUuid.bytes.drop 4 = BASE_UUID.drop 4 := by
  refine ⟨rfl, rfl, ?_, rfl⟩
  have hb : (Uuid32.mk v).intoUuid.bytes.take 4 = u32ToBeBytes v := rfl
  rw [hb]
  exact beBytesToNat_u32ToBeBytes v h

/-- Witness for C1 at the concrete value `0x1234ABCD`. -/
theorem uuid32_base_substitution_witness :
    (Uuid32.mk 0x1234ABCD).intoUuid.bytes.length = 16 ∧
    (Uuid32.mk 0x1234ABCD).intoUuid.bytes.take 4 = u32ToBeBytes 0x1234ABCD ∧
    beBytesToNat ((Uuid32.mk 0x1234ABCD).intoUuid.bytes.take 4) = 0x1234ABCD ∧
    (Uuid32.mk 0x1234ABCD).intoUuid.bytes.drop 4 = BASE_UUID.drop 4 :=
  uuid32_base_substitution 0x1234ABCD (by decide)

/-- Claim C2: `Uuid16` to `Uuid32` conversion zero-extends (the inner
value is preserved and stays below `2 ^ 16`, so the high 16 bits are zero),
is injective, and preserves the order of the underlying integers. -/
theorem uuid16_to_uuid32_zero_extension :
    (∀ v : Nat, (Uuid32.fromUuid16 ⟨v⟩).val = v) ∧
    (∀ v : Nat, v < 2 ^ 16 → (Uuid32.fromUuid16 ⟨v⟩).val < 2 ^ 16) ∧
    (∀ a b : Uuid16, Uuid32.fromUuid16 a = Uuid32.fromUuid16 b → a = b) ∧
    (∀ a b : Uuid16, a.val ≤ b.val →
      (Uuid32.fromUuid16 a).val ≤ (Uuid32.fromUuid16 b).val) := by
  refine ⟨fun v => rfl, fun v h => h, ?_, fun a b h => h⟩
  intro a b h
  cases a
  cases b
  simpa [Uuid32.fromUuid16] using h

/-- Witness for C2 at the concrete value `0xABCD`. -/
theorem uuid16_to_uuid32_zero_extension_witness :
    (Uuid32.fromUuid16 ⟨0xABCD⟩).val < 2 ^ 16 :=
  uuid16_to_uuid32_zero_extension.2.1 0xABCD (by decide)

/-- Claim C3: widening a `Uuid16` directly to a 128-bit `Uuid` equals
converting it to `Uuid32` first and widening that. -/
theorem uuid16_into_uuid_composition (v : Nat) :
    Uuid16.intoUuid ⟨v⟩ = Uuid32.intoUuid (Uuid32.fromUuid16 ⟨v⟩) :=
  rfl

/-- Claim C4: for each of the three UUID types, encoding into a
sufficiently large buffer and decoding the written bytes recovers the
original value with the whole encoding consumed (decode is a left inverse
of encode). -/
theorem uuid_codec_round_trip :
    (∀ v free : Nat, v < 2 ^ 16 → 2 ≤ free →
      Uuid16.from_bytes ((Uuid16.to_bytes ⟨v⟩ ⟨[], free⟩).2.written) =
        (Except.ok ⟨v⟩, [])) ∧
    (∀ v free : Nat, v < 2 ^ 32 → 4 ≤ free →
      Uuid32.from_bytes ((Uuid32.to_bytes ⟨v⟩ ⟨[], free⟩).2.written) =
        (Except.ok ⟨v⟩, [])) ∧
    (∀ (u : Uuid) (free : Nat), u.bytes.length = 16 → 16 ≤ free →
      Uuid.from_bytes ((Uuid.to_bytes u ⟨[], free⟩).2.written) =
        (Except.ok u, [])) := by
  refine ⟨?_, ?_, ?_⟩
  · intro v free hv hfree
    simp [Uuid16.to_bytes, writeSlice, u16ToBeBytes, Uuid16.from_bytes,
      read_array, beBytesToNat, hfree]
    omega
  · intro v free hv hfree
    simp [Uuid32.to_bytes, writeSlice, u32ToBeBytes, Uuid32.from_bytes,
      read_array, beBytesToNat, hfree]
    omega
  · intro u free hu hfree
    cases u with
    | mk bs =>
      simp only [Uuid.to_bytes, Uuid.as_bytes, writeSlice] at *
      rw [if_pos (by omega)]
      simp only [Uuid.from_bytes, read_array, List.nil_append]
      rw [if_pos (by omega)]
      simp [Uuid.fromByteArray, List.take_of_length_le (by omega : bs.length ≤ 16),
        List.drop_eq_nil_of_le (by omega : bs.length ≤ 16)]

/-- Witness for C4 at the concrete value `Uuid16(0x1234)`. -/
theorem uuid_codec_round_trip_witness :
    Uuid16.from_bytes ((Uuid16.to_bytes ⟨0x1234⟩ ⟨[], 2⟩).2.written) =
      (Except.ok ⟨0x1234⟩, []) :=
  uuid_codec_round_trip.1 0x1234 2 (by decide) (by decide)

/-- Claim C5: `to_bytes` fails with `BufferTooSmall` exactly when the free
capacity is below `space_needed`, leaving the cursor untouched; on success
the cursor advances by exactly `space_needed` bytes. -/
theorem uuid_to_bytes_all_or_nothing :
    (∀ (u : Uuid16) (c : WriteCursor),
      (c.free < u.space_needed →
        u.to_bytes c = (Except.error Error.BufferTooSmall, c)) ∧
      (u.space_needed ≤ c.free →
        (u.to_bytes c).1 = Except.ok () ∧
        (u.to_bytes c).2.written.length = c.written.length + u.space_needed ∧
        (u.to_bytes c).2.free = c.free - u.space_needed)) ∧
    (∀ (u : Uuid32) (c : WriteCursor),
      (c.free < u.space_needed →
        u.to_bytes c = (Except.error Error.BufferTooSmall, c)) ∧
      (u.space_needed ≤ c.free →
        (u.to_bytes c).1 = Except.ok () ∧
        (u.to_bytes c).2.written.length = c.written.length + u.space_needed ∧
        (u.to_bytes c).2.free = c.free - u.space_needed)) ∧
    (∀ (u : Uuid) (c : WriteCursor), u.bytes.length = 16 →
      (c.free < u.space_needed →
        u.to_bytes c = (Except.error Error.BufferTooSmall, c)) ∧
      (u.space_needed ≤ c.free →
        (u.to_bytes c).1 = Except.ok () ∧
        (u.to_bytes c).2.written.length = c.written.length + u.space_needed ∧
        (u.to_bytes c).2.free = c.free - u.space_needed)) := by
  refine ⟨?_, ?_, ?_⟩
  · intro u c
    constructor
    · intro hlt
      simp [Uuid16.to_bytes, writeSlice, u16ToBeBytes, Uuid16.space_needed] at *
      omega
    · intro hle
      simp [Uuid16.to_bytes, writeSlice, u16ToBeBytes, Uuid16.space_needed] at *
      rw [if_pos (by omega)]
      simp
  · intro u c
    constructor
    · intro hlt
      simp [Uuid32.to_bytes, writeSlice, u32ToBeBytes, Uuid32.space_needed] at *
      omega
    · intro hle
      simp [Uuid32.to_bytes, writeSlice, u32ToBeBytes, Uuid32.space_needed] at *
      rw [if_pos (by omega)]
      simp
  · intro u c hu
    constructor
    · intro hlt
      simp [Uuid.to_bytes, Uuid.as_bytes, writeSlice, Uuid.space_needed] at *
      omega
    · intro hle
      simp [Uuid.to_bytes, Uuid.as_bytes, writeSlice, Uuid.space_needed] at *
      rw [if_pos (by omega)]
      simp [hu]

/-- Witness for C5: a `Uuid16` written to a 1-byte buffer fails with
`BufferTooSmall` and leaves the cursor unchanged. -/
theorem uuid_to_bytes_all_or_nothing_witness :
    Uuid16.to_bytes ⟨0x1234⟩ ⟨[], 1⟩ =
      (Except.error Error.BufferTooSmall, ⟨[], 1⟩) :=
  (uuid_to_bytes_all_or_nothing.1 ⟨0x1234⟩ ⟨[], 1⟩).1 (by decide)

/-- Claim C6: `from_bytes` fails with `Error.Eof` whenever the input holds
fewer bytes than the type's fixed size (2 / 4 / 16). -/
theorem uuid_from_bytes_eof :
    (∀ bytes : List Nat, bytes.length < 2 →
      (Uuid16.from_bytes bytes).1 = Except.error Error.Eof) ∧
    (∀ bytes : List Nat, bytes.length < 4 →
      (Uuid32.from_bytes bytes).1 = Except.error Error.Eof) ∧
    (∀ bytes : List Nat, bytes.length < 16 →
      (Uuid.from_bytes bytes).1 = Except.error Error.Eof) := by
  refine ⟨?_, ?_, ?_⟩
  · intro bytes h
    rw [Uuid16.from_bytes, read_array, if_neg (by omega)]
  · intro bytes h
    rw [Uuid32.from_bytes, read_array, if_neg (by omega)]
  · intro bytes h
    rw [Uuid.from_bytes, read_array, if_neg (by omega)]

/-- Witness for C6: decoding a `Uuid32` from a 3-byte input fails with
`Error.Eof`. -/
theorem uuid_from_bytes_eof_witness :
    (Uuid32.from_bytes [0x12, 0x34, 0xAB]).1 = Except.error Error.Eof :=
  uuid_from_bytes_eof.2.1 [0x12, 0x34, 0xAB] (by decide)

/-- Claim C7: `Uuid32(0x1234ABCD)` widens to the 128-bit UUID with
canonical string `1234ABCD-0000-1000-8000-00805F9B34FB`, and its byte
encoding is `12 34 AB CD`. -/
theorem uuid32_concrete_vector :
    (Uuid32.mk 0x1234ABCD).intoUuid.canonicalString =
      "1234ABCD-0000-1000-8000-00805F9B34FB" ∧
    (Uuid32.mk 0x1234ABCD).intoUuid.bytes =
      [0x12, 0x34, 0xAB, 0xCD, 0x00, 0x00, 0x10, 0x00,
       0x80, 0x00, 0x00, 0x80, 0x5F, 0x9B, 0x34, 0xFB] ∧
    (Uuid32.to_bytes ⟨0x1234ABCD⟩ ⟨[], 4⟩).2.written =
      [0x12, 0x34, 0xAB, 0xCD] := by
  refine ⟨by decide, by decide, by decide⟩

/-- Claim C8: `space_needed` is the constant 2 / 4 / 16 for `Uuid16` /
`Uuid32` / `Uuid`, independent of the wrapped value. -/
theorem uuid_space_needed_constant :
    (∀ u : Uuid16, u.space_needed = 2) ∧
    (∀ u : Uuid32, u.space_needed = 4) ∧
    (∀ u : Uuid, u.space_needed = 16) :=
  ⟨fun _ => rfl, fun _ => rfl, fun _ => rfl⟩

/-- Claim C9: on an input with at least the required number of bytes,
`from_bytes` succeeds, reads exactly the first 2 / 4 / 16 bytes big-endian
and leaves exactly the remaining bytes in the cursor. -/
theorem uuid_from_bytes_success :
    (∀ bytes : List Nat, 2 ≤ bytes.length →
      Uuid16.from_bytes bytes =
        (Except.ok ⟨beBytesToNat (bytes.take 2)⟩, bytes.drop 2)) ∧
    (∀ bytes : List Nat, 4 ≤ bytes.length →
      Uuid32.from_bytes bytes =
        (Except.ok ⟨beBytesToNat (bytes.take 4)⟩, bytes.drop 4)) ∧
    (∀ bytes : List Nat, 16 ≤ bytes.length →
      Uuid.from_bytes bytes =
        (Except.ok (Uuid.fromByteArray (bytes.take 16)), bytes.drop 16)) := by
  refine ⟨?_, ?_, ?_⟩
  · intro bytes h
    rw [Uuid16.from_bytes, read_array, if_pos (by omega)]
  · intro bytes h
    rw [Uuid32.from_bytes, read_array, if_pos (by omega)]
  · intro bytes h
    rw [Uuid.from_bytes, read_array, if_pos (by omega)]

/-- Witness for C9: decoding a `Uuid16` from a 3-byte input consumes the
first two bytes big-endian and leaves the third. -/
theorem uuid_from_bytes_success_witness :
    Uuid16.from_bytes [0xAB, 0xCD, 0xEF] =
      (Except.ok ⟨beBytesToNat ([0xAB, 0xCD, 0xEF].take 2)⟩,
        [0xAB, 0xCD, 0xEF].drop 2) :=
  uuid_from_bytes_success.1 [0xAB, 0xCD, 0xEF] (by decide)
